import Mathlib

/-!
Shallow embedding of the `ts-opentelemetry-weaver` TypeScript transformer
(`src/transformer/{config-loader,validation,types,ast-visitor,span-injector}.ts`)
together with proofs settling the specification claims.

Conventions of the embedding:
* TypeScript strings are Lean `String`s; paths and method names are matched
  character by character on `String.data`.
* The regular expressions produced by `createGlobRegex` and
  `createMethodGlobRegex` only ever use literal characters, the classes
  `[^/]*` and `.*` (file globs), `.` and `.*` (method globs), an optional
  literal (from a `?` quantifier on a literal) and the optional leading
  group `(.*/)?`.  We represent the compiled regex by a list of these
  elements plus a flag for the optional leading group, and implement the
  anchored whole-string match directly.
* The JavaScript value universe needed by `validateConfig` (which receives
  an arbitrary object at runtime) is modelled by the dynamic type `JVal`.
* The statement level of the TypeScript AST is modelled by `Stmt` (method
  bodies) and `TopStmt` (top-level statements), with exactly the node
  shapes the transformer inspects or produces.  Generated wrapper code is
  given a small operational semantics (`execStmts`) that records the span
  lifecycle events (`started`, `setOk`, `setError`, `recorded`, `ended`)
  emitted on one invocation of the rewritten method.
-/

/-! ## File-path glob patterns (`createGlobRegex` in config-loader.ts) -/

/-- One element of the compiled file-path regex.  `lit` is a literal
character (the source escapes all regex metacharacters other than `*`
before expansion, so they match literally); `litOpt` is a literal made
optional by a following `?` (the one unescaped metacharacter the source
leaves in place); `starNoSlash` is `[^/]*` (from `*`); `starAny` is `.*`
(from `**`). -/
inductive GlobElem where
  | lit (c : Char)
  | litOpt (c : Char)
  | starNoSlash
  | starAny
deriving Repr, DecidableEq

/-- Scanner mirroring the replacement pipeline of `createGlobRegex`:
`**` becomes `.*` (via the `__DOUBLE_STAR__` placeholder, so it is
recognised before `*`), a remaining `*` becomes `[^/]*`, every other
character is escaped to a literal.  A `?` is not escaped by the source and
survives as a regex quantifier on the preceding atom: on a literal it
makes it optional; on `[^/]*` or `.*` it only makes the quantifier lazy,
which does not change the accepted language of an anchored match.  (A
pattern-leading `?` would make `RegExp` construction throw; the model
conservatively keeps it as a literal — no pattern of interest starts
with `?`.) -/
def globElems : List Char → List GlobElem → List GlobElem
  | [], acc => acc.reverse
  | '*' :: '*' :: rest, acc => globElems rest (.starAny :: acc)
  | '*' :: rest, acc => globElems rest (.starNoSlash :: acc)
  | '?' :: rest, acc =>
    match acc with
    | .lit c :: acc' => globElems rest (.litOpt c :: acc')
    | .litOpt c :: acc' => globElems rest (.litOpt c :: acc')
    | .starNoSlash :: _ => globElems rest acc
    | .starAny :: _ => globElems rest acc
    | [] => globElems rest (.lit '?' :: acc)
  | c :: rest, acc => globElems rest (.lit c :: acc)

/-- The compiled form of a file-path glob: the element list, plus the flag
recording that the source rewrote a leading `.*/` into the optional group
`(.*/)?` (done exactly when the original pattern starts with `**/`). -/
structure GlobRegex where
  optionalLeadDir : Bool
  elems : List GlobElem
deriving Repr, DecidableEq

/-- `pattern.startsWith('**/')`, decided on the character list. -/
def startsWithDoubleStarSlash : List Char → Bool
  | '*' :: '*' :: '/' :: _ => true
  | _ => false

/-- `createGlobRegex` of config-loader.ts.  When the pattern starts with
`**/`, the element list necessarily starts with `starAny, lit '/'`; the
source replaces that prefix of the regex text by `(.*/)?`, which we record
by dropping the two elements and setting `optionalLeadDir`. -/
def createGlobRegex (pattern : String) : GlobRegex :=
  let es := globElems pattern.data []
  if startsWithDoubleStarSlash pattern.data then
    { optionalLeadDir := true, elems := es.drop 2 }
  else
    { optionalLeadDir := false, elems := es }

/-- An ECMAScript line terminator: the characters that the regex class
`.` does **not** match when the `s` (dotAll) flag is absent, as in the
flagless `new RegExp(...)` calls of config-loader.ts. -/
def isLineTerminator (c : Char) : Bool :=
  c == '\n' || c == '\r' || c == '\u2028' || c == '\u2029'

/-- Backtracking continuation for the `[^/]*` class: try the rest of the
regex at every split point whose consumed prefix is separator-free.  (A
negated class matches line terminators, so only `/` is excluded.) -/
def tryStarNoSlash (f : List Char → Bool) : List Char → Bool
  | [] => f []
  | d :: ds => f (d :: ds) || (d != '/' && tryStarNoSlash f ds)

/-- Backtracking continuation for the `.*` class: try the rest of the
regex at every split point whose consumed prefix is free of line
terminators (flagless `.` excludes them). -/
def tryStarAny (f : List Char → Bool) : List Char → Bool
  | [] => f []
  | d :: ds => f (d :: ds) || (!isLineTerminator d && tryStarAny f ds)

/-- Anchored matching of the element list against the whole string. -/
def matchElems : List GlobElem → List Char → Bool
  | [], l => l.isEmpty
  | .lit c :: es, l =>
    match l with
    | [] => false
    | d :: ds => c == d && matchElems es ds
  | .litOpt c :: es, l =>
    match l with
    | [] => matchElems es []
    | d :: ds => matchElems es (d :: ds) || (c == d && matchElems es ds)
  | .starNoSlash :: es, l => tryStarNoSlash (matchElems es) l
  | .starAny :: es, l => tryStarAny (matchElems es) l

/-- `RegExp.test` for the compiled glob: the optional leading group
`(.*/)?` matches either nothing or an arbitrary prefix ending in `/`. -/
def globTest (g : GlobRegex) (s : String) : Bool :=
  if g.optionalLeadDir then
    matchElems g.elems s.data || matchElems (.starAny :: .lit '/' :: g.elems) s.data
  else
    matchElems g.elems s.data

/-! ## Method-name glob patterns (`createMethodGlobRegex`) -/

/-- Elements of the compiled method-name regex: `*` becomes `.*`, `?`
becomes `.`, everything else (metacharacters being escaped) is literal.
Both `.*` and `.` exclude line terminators (flagless regex). -/
inductive MGlobElem where
  | lit (c : Char)
  | star
  | anyChar
deriving Repr, DecidableEq

def methodGlobElems : List Char → List MGlobElem
  | [] => []
  | '*' :: rest => .star :: methodGlobElems rest
  | '?' :: rest => .anyChar :: methodGlobElems rest
  | c :: rest => .lit c :: methodGlobElems rest

def matchMElems : List MGlobElem → List Char → Bool
  | [], l => l.isEmpty
  | .lit c :: es, l =>
    match l with
    | [] => false
    | d :: ds => c == d && matchMElems es ds
  | .anyChar :: es, l =>
    match l with
    | [] => false
    | d :: ds => !isLineTerminator d && matchMElems es ds
  | .star :: es, l => tryStarAny (matchMElems es) l

/-- `createMethodGlobRegex` of config-loader.ts (the compiled form). -/
def createMethodGlobRegex (pattern : String) : List MGlobElem :=
  methodGlobElems pattern.data

/-- `.test` of the compiled method-name regex (anchored `^...$`). -/
def methodGlobTest (pattern : String) (methodName : String) : Bool :=
  matchMElems (createMethodGlobRegex pattern) methodName.data

/-! ## Configuration (types.ts) -/

/-- `TracingConfig` of types.ts, restricted to the well-typed view used by
the matching and rewriting functions.  Field `include_` stands for the
source's `include` (a reserved word in Lean) and `spanNamePfx` for the
source's `spanNamePrefix`. -/
structure TracingConfig where
  include_ : List String
  exclude : List String
  instrumentPrivateMethods : Bool
  spanNamePfx : String
  autoInjectTracer : Bool
  commonAttributes : Option (List (String × String)) := none
  excludeMethods : Option (List String) := none
  includeMethods : Option (List String) := none
  debug : Bool := false
  maxMethodsPerFile : Option Nat := none
deriving Repr, DecidableEq

/-- `DEFAULT_CONFIG` of types.ts (well-typed view). -/
def DEFAULT_CONFIG : TracingConfig :=
  { include_ := ["**/*service.ts", "**/*repository.ts", "**/*manager.ts"]
    exclude := ["**/*.test.ts", "**/*.spec.ts", "**/node_modules/**"]
    instrumentPrivateMethods := true
    spanNamePfx := "ts-otel-weaver"
    autoInjectTracer := true
    excludeMethods := some ["constructor", "toString", "valueOf", "toJSON", "inspect"]
    debug := false
    maxMethodsPerFile := some 100 }

/-! ## File and method eligibility (config-loader.ts) -/

/-- Path-separator normalisation `fileName.replace(/\\/g, '/')`. -/
def normalizePath (fileName : String) : String :=
  ⟨fileName.data.map (fun c => if c == '\\' then '/' else c)⟩

/-- `shouldTransformFile` of config-loader.ts. -/
def shouldTransformFile (fileName : String) (config : TracingConfig) : Bool :=
  let normalizedFileName := normalizePath fileName
  let isExcluded := config.exclude.any fun pattern =>
    globTest (createGlobRegex pattern) normalizedFileName
  if isExcluded then
    false
  else
    config.include_.any fun pattern =>
      globTest (createGlobRegex pattern) normalizedFileName

/-- `matchesMethodPattern` of config-loader.ts. -/
def matchesMethodPattern (methodName : String) (patterns : List String) : Bool :=
  patterns.any fun pattern =>
    if pattern.data.contains '*' || pattern.data.contains '?' then
      methodGlobTest pattern methodName
    else
      pattern == methodName

/-- `methodName.startsWith('_')`, decided on the character list. -/
def startsWithUnderscore (s : String) : Bool :=
  match s.data with
  | '_' :: _ => true
  | _ => false

/-- The exclude-list phase of `shouldInstrumentMethod` (reached only when
`includeMethods` is absent or empty). -/
def excludePhase (methodName : String) (config : TracingConfig) : Bool :=
  match config.excludeMethods with
  | some excl =>
    if excl.length > 0 then
      if matchesMethodPattern methodName excl then false else true
    else true
  | none => true

/-- `shouldInstrumentMethod` of config-loader.ts. -/
def shouldInstrumentMethod (methodName : String) (config : TracingConfig) : Bool :=
  if !config.instrumentPrivateMethods && startsWithUnderscore methodName then
    false
  else
    match config.includeMethods with
    | some incl =>
      if incl.length > 0 then matchesMethodPattern methodName incl
      else excludePhase methodName config
    | none => excludePhase methodName config

/-! ## Configuration validation (validation.ts, config-loader.ts)

`validateConfig` receives an arbitrary JavaScript object at runtime, so it
is modelled over a dynamic value type. -/

/-- A JavaScript runtime value, as far as `validateConfig` inspects it. -/
inductive JVal where
  | undef
  | jnull
  | jbool (b : Bool)
  | num (n : Int)
  | str (s : String)
  | arr (elems : List JVal)
  | obj (fields : List (String × JVal))
deriving Repr

/-- `s.trim() === ''`: every character of the string is whitespace
(ASCII whitespace model; the rarer Unicode whitespace JavaScript also
trims is not represented, identically on the checker and its
specification). -/
def trimIsEmpty (s : String) : Bool :=
  s.data.all fun c => c == ' ' || c == '\t' || c == '\n' || c == '\r'

/-- JavaScript truthiness (empty string, `0`, `false`, `null`,
`undefined` are falsy; every array and object is truthy). -/
def JVal.truthy : JVal → Bool
  | .undef => false
  | .jnull => false
  | .jbool b => b
  | .num n => n != 0
  | .str s => s != ""
  | .arr _ => true
  | .obj _ => true

def JVal.isStr : JVal → Bool
  | .str _ => true
  | _ => false

/-- The merged configuration object as `validateConfig` sees it: one
(possibly absent) dynamic value per recognised key.  `none` means the key
is absent; `some .undef` means it is present with value `undefined`
(property reads do not distinguish the two, but object spread does). -/
structure RawConfig where
  include_ : Option JVal := none
  exclude : Option JVal := none
  instrumentPrivateMethods : Option JVal := none
  spanNamePfx : Option JVal := none
  autoInjectTracer : Option JVal := none
  commonAttributes : Option JVal := none
  excludeMethods : Option JVal := none
  includeMethods : Option JVal := none
  debug : Option JVal := none
  logLevel : Option JVal := none
  maxMethodsPerFile : Option JVal := none
  includeSourceMap : Option JVal := none
deriving Repr

/-- Reading a property: an absent key reads as `undefined`. -/
def propOf (v : Option JVal) : JVal := Option.getD v JVal.undef

/-- Errors produced by the `include` checks of `validateConfig`. -/
def includeFieldErrors (inc : JVal) : List String :=
  if !inc.truthy || !(match inc with | .arr _ => true | _ => false) ||
      (match inc with | .arr l => l.length == 0 | _ => false) then
    ["include patterns are required and must be a non-empty array"]
  else
    match inc with
    | .arr l =>
      (l.filter fun pattern =>
        !(match pattern with | .str s => !trimIsEmpty s | _ => false)).map
        fun _ => "Invalid include pattern"
    | _ => []

/-- Errors produced by the `exclude` checks of `validateConfig`
(note: only string-ness is required of each element, not non-emptiness). -/
def excludeFieldErrors (exc : JVal) : List String :=
  if exc.truthy && !(match exc with | .arr _ => true | _ => false) then
    ["exclude must be an array of strings"]
  else if exc.truthy then
    match exc with
    | .arr l => (l.filter fun pattern => !pattern.isStr).map fun _ => "Invalid exclude pattern"
    | _ => []
  else []

/-- Errors from the `spanNamePrefix` check (a falsy value — in particular
a missing one or the empty string — produces no error). -/
def spanNamePfxErrors (v : JVal) : List String :=
  if v.truthy && !v.isStr then ["spanNamePrefix must be a string"] else []

/-- Warning from the `spanNamePrefix` check (truthy string whose trim is
empty, i.e. whitespace-only). -/
def spanNamePfxWarnings (v : JVal) : List String :=
  if v.truthy && !v.isStr then []
  else if v.truthy && (match v with | .str s => trimIsEmpty s | _ => false) then
    ["spanNamePrefix is empty, consider providing a meaningful prefix"]
  else []

/-- Errors from the `maxMethodsPerFile` check (`!== undefined` guard, then
`typeof !== 'number' || < 1`). -/
def maxMethodsErrors (v : JVal) : List String :=
  match v with
  | .undef => []
  | .num n => if n < 1 then ["maxMethodsPerFile must be a positive number"] else []
  | _ => ["maxMethodsPerFile must be a positive number"]

def maxMethodsWarnings (v : JVal) : List String :=
  match v with
  | .num n => if 1 ≤ n && 1000 < n then
      ["maxMethodsPerFile is very high, this might impact performance"] else []
  | _ => []

def recognizedLogLevels : List String := ["none", "error", "warn", "info", "debug"]

/-- Errors from the `logLevel` check (only a truthy value is checked). -/
def logLevelErrors (v : JVal) : List String :=
  if v.truthy && !(match v with | .str s => recognizedLogLevels.contains s | _ => false) then
    ["logLevel must be one of: none, error, warn, info, debug"]
  else []

/-- Errors from the `excludeMethods` / `includeMethods` array checks. -/
def methodListErrors (msg : String) (v : JVal) : List String :=
  if v.truthy && !(match v with | .arr _ => true | _ => false) then [msg] else []

/-- Errors from the `commonAttributes` checks.  `typeof` of an array or of
`null` is `'object'`, but `null` is falsy and skipped; `Object.entries` of
an array enumerates its elements. -/
def commonAttributesErrors (v : JVal) : List String :=
  if v.truthy && !(match v with | .arr _ => true | .obj _ => true | _ => false) then
    ["commonAttributes must be an object"]
  else if v.truthy then
    match v with
    | .obj fields =>
      (fields.filter fun kv => !kv.2.isStr).map fun _ => "commonAttributes values must be strings"
    | .arr l =>
      (l.filter fun e => !e.isStr).map fun _ => "commonAttributes values must be strings"
    | _ => []
  else []

/-- `ValidationResult` of types.ts. -/
structure ValidationResult where
  isValid : Bool
  errors : List String
  warnings : List String
deriving Repr, DecidableEq

/-- `validateConfig` of validation.ts, with errors and warnings collected
in source order. -/
def validateConfig (config : RawConfig) : ValidationResult :=
  let errors :=
    includeFieldErrors (propOf config.include_) ++
    excludeFieldErrors (propOf config.exclude) ++
    spanNamePfxErrors (propOf config.spanNamePfx) ++
    maxMethodsErrors (propOf config.maxMethodsPerFile) ++
    logLevelErrors (propOf config.logLevel) ++
    methodListErrors "excludeMethods must be an array of strings" (propOf config.excludeMethods) ++
    methodListErrors "includeMethods must be an array of strings" (propOf config.includeMethods) ++
    commonAttributesErrors (propOf config.commonAttributes)
  let warnings :=
    spanNamePfxWarnings (propOf config.spanNamePfx) ++
    maxMethodsWarnings (propOf config.maxMethodsPerFile)
  { isValid := errors.length == 0, errors := errors, warnings := warnings }

/-- `DEFAULT_CONFIG` as the dynamic object spread by `loadConfig`
(`commonAttributes` and `includeMethods` keys are absent there). -/
def DEFAULT_CONFIG_RAW : RawConfig :=
  { include_ := some (.arr [.str "**/*service.ts", .str "**/*repository.ts", .str "**/*manager.ts"])
    exclude := some (.arr [.str "**/*.test.ts", .str "**/*.spec.ts", .str "**/node_modules/**"])
    instrumentPrivateMethods := some (.jbool true)
    spanNamePfx := some (.str "ts-otel-weaver")
    autoInjectTracer := some (.jbool true)
    excludeMethods := some (.arr [.str "constructor", .str "toString", .str "valueOf",
      .str "toJSON", .str "inspect"])
    debug := some (.jbool false)
    logLevel := some (.str "warn")
    maxMethodsPerFile := some (.num 100)
    includeSourceMap := some (.jbool false) }

/-- One key of the object spread `{...DEFAULT_CONFIG, ...userConfig}`:
a key present in the user object wins even when its value is
`undefined`. -/
def mergeOpt (dflt user : Option JVal) : Option JVal :=
  match user with
  | some v => some v
  | none => dflt

/-- The object spread `{...DEFAULT_CONFIG, ...userConfig}`. -/
def mergeConfig (user : RawConfig) : RawConfig :=
  { include_ := mergeOpt DEFAULT_CONFIG_RAW.include_ user.include_
    exclude := mergeOpt DEFAULT_CONFIG_RAW.exclude user.exclude
    instrumentPrivateMethods :=
      mergeOpt DEFAULT_CONFIG_RAW.instrumentPrivateMethods user.instrumentPrivateMethods
    spanNamePfx := mergeOpt DEFAULT_CONFIG_RAW.spanNamePfx user.spanNamePfx
    autoInjectTracer := mergeOpt DEFAULT_CONFIG_RAW.autoInjectTracer user.autoInjectTracer
    commonAttributes := mergeOpt DEFAULT_CONFIG_RAW.commonAttributes user.commonAttributes
    excludeMethods := mergeOpt DEFAULT_CONFIG_RAW.excludeMethods user.excludeMethods
    includeMethods := mergeOpt DEFAULT_CONFIG_RAW.includeMethods user.includeMethods
    debug := mergeOpt DEFAULT_CONFIG_RAW.debug user.debug
    logLevel := mergeOpt DEFAULT_CONFIG_RAW.logLevel user.logLevel
    maxMethodsPerFile := mergeOpt DEFAULT_CONFIG_RAW.maxMethodsPerFile user.maxMethodsPerFile
    includeSourceMap := mergeOpt DEFAULT_CONFIG_RAW.includeSourceMap user.includeSourceMap }

/-- `loadConfig` of config-loader.ts: merge defaults with the user config,
validate, and either throw `CONFIG_INVALID` or return the merged value
(logging side effects are outside the model). -/
def loadConfig (userConfig : Option RawConfig) : Except String RawConfig :=
  let config := mergeConfig (userConfig.getD {})
  let validation := validateConfig config
  if !validation.isValid then
    .error "CONFIG_INVALID"
  else
    .ok config

/-! ## Statement-level AST (the nodes the rewriting engine inspects or
produces) and span-event semantics -/

/-- Span attributes as generated by `createAttributesObject`. -/
structure SpanAttrs where
  codeFunction : String
  codeNamespace : String
  libraryName : String
  libraryVersion : String
  common : List (String × String)
deriving Repr, DecidableEq

/-- A statement of a method body.  User statements are `skip` (any
side-effect-free statement), `yieldV`, `ret`, `throwE` and `ifStmt`
(standing for all compound statements: what matters to the rewriting
engine is only that a `return` nested inside one is not a top-level
`ReturnStatement`).  The remaining constructors are the nodes the span
injector generates: the span-lifecycle calls, `throwCaught` (`throw
error` inside a catch clause), `tryCatchFinally`, `retStartActiveSpan`
(`return tracer.startActiveSpan(name, attrs, cb)`, with `genCb` recording
whether the callback is a generator function), `startSpanDecl` (`const
span = tracer.startSpan(name, attrs)`) and `forwardIterate` (the
element-by-element delegation loop over an inner generator built from the
original body). -/
inductive Stmt where
  | skip
  | yieldV (v : Int)
  | ret (e : Option Int)
  | throwE (e : Int)
  | ifStmt (c : Bool) (thenB : List Stmt) (elseB : List Stmt)
  | setStatusOk
  | setStatusError
  | recordException
  | spanEnd
  | throwCaught
  | tryCatchFinally (t : List Stmt) (c : List Stmt) (f : Option (List Stmt))
  | retStartActiveSpan (name : String) (attrs : SpanAttrs) (genCb : Bool) (cb : List Stmt)
  | startSpanDecl (name : String) (attrs : SpanAttrs)
  | forwardIterate (inner : List Stmt)
deriving Repr

/-- Outcome of executing a statement list. -/
inductive Outcome where
  | normal
  | ret (v : Option Int)
  | thrown (e : Int)
deriving Repr, DecidableEq

/-- Observable span-lifecycle events of one invocation. -/
inductive SpanEvent where
  | started (name : String)
  | setOk
  | setError
  | recorded
  | ended
  | yielded (v : Int)
deriving Repr, DecidableEq

mutual

/-- Big-step execution of a statement, recording span events.  The second
argument is the `error` binding of the innermost enclosing catch clause
(used by `throwCaught`); function boundaries (`startActiveSpan` callbacks,
inner generators) reset it.  A `retStartActiveSpan` models OpenTelemetry's
`startActiveSpan`, which starts a span, invokes the callback and forwards
its return value or exception — it does not end the span itself.  For a
generator callback (`genCb = true`) executing `cb` models the consumer
fully draining the generator object that the callback call returns.
`forwardIterate` models the `yield*`/`for await` delegation: the inner
generator's statements run to completion (a `return` merely stops the
iteration), and an exception propagates. -/
def execStmt : Stmt → Option Int → Outcome × List SpanEvent
  | .skip, _ => (.normal, [])
  | .yieldV v, _ => (.normal, [.yielded v])
  | .ret e, _ => (.ret e, [])
  | .throwE e, _ => (.thrown e, [])
  | .ifStmt c t e, caught => if c then execStmts t caught else execStmts e caught
  | .setStatusOk, _ => (.normal, [.setOk])
  | .setStatusError, _ => (.normal, [.setError])
  | .recordException, _ => (.normal, [.recorded])
  | .spanEnd, _ => (.normal, [.ended])
  | .throwCaught, caught => (.thrown (caught.getD 0), [])
  | .tryCatchFinally t c f, caught =>
    let rt := execStmts t caught
    let rc := match rt.1 with
      | .thrown e => execStmts c (some e)
      | o => (o, [])
    let rf := match f with
      | none => ((Outcome.normal), ([] : List SpanEvent))
      | some fb => execStmts fb caught
    let final := match rf.1 with
      | .normal => rc.1
      | o => o
    (final, rt.2 ++ rc.2 ++ rf.2)
  | .retStartActiveSpan name _ _ cb, _ =>
    let r := execStmts cb none
    let o := match r.1 with
      | .ret v => Outcome.ret v
      | .normal => Outcome.ret none
      | .thrown e => Outcome.thrown e
    (o, .started name :: r.2)
  | .startSpanDecl name _, _ => (.normal, [.started name])
  | .forwardIterate inner, _ =>
    let r := execStmts inner none
    let o := match r.1 with
      | .thrown e => Outcome.thrown e
      | _ => Outcome.normal
    (o, r.2)

/-- Big-step execution of a statement list (stopping at the first abrupt
completion). -/
def execStmts : List Stmt → Option Int → Outcome × List SpanEvent
  | [], _ => (.normal, [])
  | s :: rest, caught =>
    let r := execStmt s caught
    match r.1 with
    | .normal =>
      let r2 := execStmts rest caught
      (r2.1, r.2 ++ r2.2)
    | o => (o, r.2)
end

/-! ## Method declarations and the span injector (span-injector.ts) -/

def PACKAGE_VERSION : String := "1.1.4"
def PACKAGE_NAME : String := "@waitingliou/ts-otel-weaver"

/-- Method modifiers (only `async` is inspected by the injector). -/
inductive Modifier where
  | asyncMod
  | staticMod
  | privateMod
  | otherMod
deriving Repr, DecidableEq

/-- A `ts.MethodDeclaration`, with the fields `updateMethodDeclaration`
threads through.  (A TypeScript `constructor` is a
`ConstructorDeclaration`, a different node kind that never reaches
`visitMethodDeclaration`, so it is not represented here.) -/
structure MethodDecl where
  modifiers : List Modifier
  asteriskTok : Bool
  name : Option String
  questionTok : Bool
  typeParams : List String
  params : List String
  retType : Option String
  body : Option (List Stmt)
deriving Repr

/-- `TransformContext` of types.ts. -/
structure TransformContext where
  config : TracingConfig
  sourceFile : String
  hasTracerImport : Bool
  className : Option String := none
deriving Repr

/-- `createAttributesObject` of span-injector.ts. -/
def createAttributesObject (method : MethodDecl) (context : TransformContext) : SpanAttrs :=
  { codeFunction := method.name.getD "unknown"
    codeNamespace := context.className.getD "UnknownClass"
    libraryName := PACKAGE_NAME
    libraryVersion := PACKAGE_VERSION
    common := (context.config.commonAttributes).getD [] }

/-- The statement loop of `createTryCatchBlock`: before each top-level
`ReturnStatement` a `span.setStatus OK` call is inserted; other
statements pass through; the flag records whether any top-level return
was seen. -/
def injectOkStatements : List Stmt → List Stmt × Bool
  | [] => ([], false)
  | stmt :: rest =>
    let r := injectOkStatements rest
    match stmt with
    | .ret e => (.setStatusOk :: .ret e :: r.1, true)
    | s => (s :: r.1, r.2)

/-- `createTryCatchBlock` of span-injector.ts (the `isAsync` parameter is
declared but unused in the source as well).  The produced block is
`try {...} catch (error) { recordException; setStatus ERROR; throw error }
finally { span.end() }`. -/
def createTryCatchBlock (originalBody : List Stmt) (_isAsync : Bool) : List Stmt :=
  let r := injectOkStatements originalBody
  let bodyStatements := if r.2 then r.1 else r.1 ++ [Stmt.setStatusOk]
  [ .tryCatchFinally bodyStatements
      [.recordException, .setStatusError, .throwCaught]
      (some [.spanEnd]) ]

/-- `createSyncSpanWrapper`: `return tracer.startActiveSpan(spanName,
attrs, (span) => createTryCatchBlock(...))`. -/
def createSyncSpanWrapper (method : MethodDecl) (spanName : String)
    (context : TransformContext) : List Stmt :=
  match method.body with
  | none => []
  | some originalBody =>
    [ .retStartActiveSpan spanName (createAttributesObject method context) false
        (createTryCatchBlock originalBody false) ]

/-- `createAsyncSpanWrapper`: identical structure, awaited. -/
def createAsyncSpanWrapper (method : MethodDecl) (spanName : String)
    (context : TransformContext) : List Stmt :=
  match method.body with
  | none => []
  | some originalBody =>
    [ .retStartActiveSpan spanName (createAttributesObject method context) false
        (createTryCatchBlock originalBody true) ]

/-- `createSyncGeneratorTryCatchBlock` of span-injector.ts:
`try { yield* innerGenerator(); setStatus OK } catch (error) {...}` —
the `createTryStatement` call passes `undefined` for the finally block,
so the produced statement has no finally clause and contains no
`span.end()` call. -/
def createSyncGeneratorTryCatchBlock (originalStatements : List Stmt) : List Stmt :=
  [ .tryCatchFinally
      [.forwardIterate originalStatements, .setStatusOk]
      [.recordException, .setStatusError, .throwCaught]
      none ]

/-- `createSyncGeneratorSpanWrapper`: `return tracer.startActiveSpan(
spanName, attrs, function* (span) {...})` with a generator callback. -/
def createSyncGeneratorSpanWrapper (method : MethodDecl) (spanName : String)
    (context : TransformContext) : List Stmt :=
  match method.body with
  | none => []
  | some originalBody =>
    [ .retStartActiveSpan spanName (createAttributesObject method context) true
        (createSyncGeneratorTryCatchBlock originalBody) ]

/-- `createAsyncGeneratorSpanWrapper`: `const span = tracer.startSpan(...);
try { const innerGenerator = ...; for await (const item of innerGenerator)
yield item; setStatus OK } catch (error) {...} finally { span.end() }`. -/
def createAsyncGeneratorSpanWrapper (method : MethodDecl) (spanName : String)
    (context : TransformContext) : List Stmt :=
  match method.body with
  | none => []
  | some originalBody =>
    [ .startSpanDecl spanName (createAttributesObject method context),
      .tryCatchFinally
        [.forwardIterate originalBody, .setStatusOk]
        [.recordException, .setStatusError, .throwCaught]
        (some [.spanEnd]) ]

/-- `wrapMethodWithSpan` of span-injector.ts: dispatch on the control-flow
shape, then `updateMethodDeclaration` with all fields of the original
method except the body. -/
def wrapMethodWithSpan (method : MethodDecl) (context : TransformContext) : MethodDecl :=
  let methodName := method.name.getD "unknown"
  let className := context.className.getD "UnknownClass"
  let spanName := context.config.spanNamePfx ++ "." ++ className ++ "." ++ methodName
  let isAsync := method.modifiers.contains .asyncMod
  let isGenerator := method.asteriskTok
  let newBody : List Stmt :=
    if isGenerator && isAsync then
      createAsyncGeneratorSpanWrapper method spanName context
    else if isGenerator then
      createSyncGeneratorSpanWrapper method spanName context
    else if isAsync then
      createAsyncSpanWrapper method spanName context
    else
      createSyncSpanWrapper method spanName context
  { method with body := some newBody }

/-! ## Tree traversal (ast-visitor.ts) -/

/-- A class member: a method declaration or anything else (properties,
constructors, …), which `visitClassDeclaration`'s member visitor returns
unchanged. -/
inductive Member where
  | method (m : MethodDecl)
  | otherMember
deriving Repr

/-- A top-level statement, carrying exactly what
`hasExistingTracerImport` inspects: for an import declaration the module
specifier and the named-import list (`none` when there is no import
clause with named bindings), for a variable statement the identifiers it
declares. -/
inductive TopStmt where
  | importDecl (moduleName : String) (named : Option (List String))
  | varStmt (names : List String)
  | classDecl (name : Option String) (members : List Member)
  | otherStmt
deriving Repr

/-- A `ts.SourceFile`, as far as the visitor reads or rewrites it. -/
structure SourceFile where
  fileName : String
  statements : List TopStmt
deriving Repr

/-- `hasExistingTracerImport` of ast-visitor.ts. -/
def hasExistingTracerImport (sourceFile : SourceFile) : Bool :=
  sourceFile.statements.any fun statement =>
    match statement with
    | .importDecl moduleName (some importedNames) =>
      moduleName == "@opentelemetry/api" &&
        (importedNames.contains "trace" || importedNames.contains "SpanStatusCode" ||
          importedNames.contains "SpanKind")
    | .varStmt names => names.contains "tracer"
    | _ => false

/-- `createTracerImports` of ast-visitor.ts: the two-statement preamble
`import { trace, SpanStatusCode, SpanKind } from '@opentelemetry/api';`
and `const tracer = trace.getTracer('@waiting/ts-otel-weaver');`. -/
def createTracerImports : List TopStmt :=
  [ .importDecl "@opentelemetry/api" (some ["trace", "SpanStatusCode", "SpanKind"]),
    .varStmt ["tracer"] ]

/-- `visitMethodDeclaration` of ast-visitor.ts: skip when the method has
no name, fails `shouldInstrumentMethod`, or has no body; otherwise wrap. -/
def visitMethodDeclaration (method : MethodDecl) (transformContext : TransformContext) :
    MethodDecl :=
  match method.name with
  | none => method
  | some methodName =>
    if !shouldInstrumentMethod methodName transformContext.config then
      method
    else
      match method.body with
      | none => method
      | some _ => wrapMethodWithSpan method transformContext

/-- `visitClassDeclaration` of ast-visitor.ts: set the context's class
name (with the `'UnknownClass'` fallback for an anonymous class), visit
every member — transforming method declarations, passing everything else
through — and restore the previous class name.  The save/restore of the
mutable context field is rendered by passing an updated context value to
the member visits only. -/
def visitClassDeclaration (name : Option String) (members : List Member)
    (transformContext : TransformContext) : TopStmt :=
  let classContext := { transformContext with className := some (name.getD "UnknownClass") }
  let newMembers := members.map fun member =>
    match member with
    | .method m => Member.method (visitMethodDeclaration m classContext)
    | other => other
  .classDecl name newMembers

/-- The per-statement action of the child visitor created by
`createVisitor`: class declarations are visited, everything else is left
unchanged. -/
def transformTopStmt (transformContext : TransformContext) : TopStmt → TopStmt
  | .classDecl name members => visitClassDeclaration name members transformContext
  | other => other

/-- `visitSourceFile` of ast-visitor.ts: record the file name and whether
a tracer entry point already exists, return the file unchanged when its
path is ineligible, otherwise transform every top-level statement and —
when `autoInjectTracer` is set and no entry point was present — prepend
the two-statement tracer preamble. -/
def visitSourceFile (sourceFile : SourceFile) (transformContext0 : TransformContext) :
    SourceFile :=
  let transformContext :=
    { transformContext0 with
        sourceFile := sourceFile.fileName
        hasTracerImport := hasExistingTracerImport sourceFile }
  if !shouldTransformFile sourceFile.fileName transformContext.config then
    sourceFile
  else
    let transformedStatements :=
      sourceFile.statements.map (transformTopStmt transformContext)
    if transformContext.config.autoInjectTracer && !transformContext.hasTracerImport then
      { sourceFile with statements := createTracerImports ++ transformedStatements }
    else
      { sourceFile with statements := transformedStatements }

/-! ## Auxiliary predicates and the spec-side validity condition -/

mutual

/-- A user-written statement (none of the injector's span nodes) that
contains no `return` statement anywhere, not even nested. -/
def topRetFree : Stmt → Bool
  | .skip => true
  | .yieldV _ => true
  | .throwE _ => true
  | .ifStmt _ t e => topRetFreeList t && topRetFreeList e
  | _ => false

def topRetFreeList : List Stmt → Bool
  | [] => true
  | s :: rest => topRetFree s && topRetFreeList rest
end

/-- A user-written method body in which every `return` statement occurs at
the top level of the body block. -/
def topLevelBody (body : List Stmt) : Bool :=
  body.all fun s =>
    match s with
    | .ret _ => true
    | s => topRetFree s

/-- One invocation of a method rewritten by `wrapMethodWithSpan`:
execute its new body and observe the outcome and the span events. -/
def runRewrittenMethod (method : MethodDecl) (context : TransformContext) :
    Outcome × List SpanEvent :=
  execStmts ((wrapMethodWithSpan method context).body.getD []) none

/-- Spec-side validity of the `include` field: a non-empty array of
non-blank strings. -/
def includeOkSpec : JVal → Bool
  | .arr l => l.length != 0 && l.all fun p =>
      match p with
      | .str s => !trimIsEmpty s
      | _ => false
  | _ => false

/-- Spec-side validity of the `exclude` field: when truthy, an array
whose elements are strings (the empty string is allowed). -/
def excludeOkSpec (v : JVal) : Bool :=
  if !v.truthy then true
  else
    match v with
    | .arr l => l.all fun p => p.isStr
    | _ => false

/-- Spec-side validity of `spanNamePrefix`: only a truthy non-string is
rejected; a missing (or otherwise falsy) value is accepted. -/
def spanNamePfxOkSpec (v : JVal) : Bool :=
  !v.truthy || v.isStr

/-- Spec-side validity of `maxMethodsPerFile`: absent, or a number that
is at least 1. -/
def maxMethodsOkSpec : JVal → Bool
  | .undef => true
  | .num n => 1 ≤ n
  | _ => false

/-- Spec-side validity of `logLevel`: falsy, or one of the five
recognised level strings. -/
def logLevelOkSpec (v : JVal) : Bool :=
  !v.truthy ||
    (match v with
     | .str s => recognizedLogLevels.contains s
     | _ => false)

/-- Spec-side validity of `excludeMethods` / `includeMethods`: falsy or
an array. -/
def methodListOkSpec (v : JVal) : Bool :=
  !v.truthy || (match v with | .arr _ => true | _ => false)

/-- Spec-side validity of `commonAttributes`: falsy, or an object (or
array) whose values (elements) are all strings. -/
def commonAttributesOkSpec (v : JVal) : Bool :=
  if !v.truthy then true
  else
    match v with
    | .obj fields => fields.all fun kv => kv.2.isStr
    | .arr l => l.all fun e => e.isStr
    | _ => false

/-- The amended validity condition of the configuration resolver. -/
def validConfigSpec (c : RawConfig) : Bool :=
  includeOkSpec (propOf c.include_) &&
  excludeOkSpec (propOf c.exclude) &&
  spanNamePfxOkSpec (propOf c.spanNamePfx) &&
  maxMethodsOkSpec (propOf c.maxMethodsPerFile) &&
  logLevelOkSpec (propOf c.logLevel) &&
  methodListOkSpec (propOf c.excludeMethods) &&
  methodListOkSpec (propOf c.includeMethods) &&
  commonAttributesOkSpec (propOf c.commonAttributes)

/-! ## Concrete fixtures used by witnesses and counterexamples -/

/-- A transform context over the default configuration, inside class `A`
of an eligible file. -/
def baseCtx : TransformContext :=
  { config := DEFAULT_CONFIG, sourceFile := "user.service.ts", hasTracerImport := false,
    className := some "A" }

/-- A plain method `getData() { return 1; }`. -/
def mPlain : MethodDecl :=
  { modifiers := [], asteriskTok := false, name := some "getData", questionTok := false,
    typeParams := [], params := [], retType := none, body := some [.ret (some 1)] }

/-- A generator method `*genSeq() { yield 7; }`. -/
def mGen : MethodDecl :=
  { mPlain with asteriskTok := true, name := some "genSeq", body := some [.yieldV 7] }

/-- A plain method with an early return nested in an `if` that is taken:
`m() { if (true) { return 1; } return 2; }`. -/
def mNested : MethodDecl :=
  { mPlain with body := some [.ifStmt true [.ret (some 1)] [], .ret (some 2)] }

/-- A second plain method of the fixture class. -/
def mMore : MethodDecl := { mPlain with name := some "getMore" }

/-- An eligible source file with one class containing two eligible
methods. -/
def fileC2 : SourceFile :=
  { fileName := "user.service.ts",
    statements := [.classDecl (some "A") [.method mPlain, .method mMore]] }

/-- The default configuration with `maxMethodsPerFile` set to 1. -/
def cfgLimit1 : TracingConfig := { DEFAULT_CONFIG with maxMethodsPerFile := some 1 }

def ctxLimit1 : TransformContext :=
  { config := cfgLimit1, sourceFile := "", hasTracerImport := false }

/-- Whether a (possibly absent) method body is the injector's wrapper
shape (its first statement is a `return tracer.startActiveSpan(...)`). -/
def isWrappedBody : Option (List Stmt) → Bool
  | some (.retStartActiveSpan _ _ _ _ :: _) => true
  | _ => false

/-- For each class of a file, whether each of its methods has a wrapped
body. -/
def wrappedFlags (f : SourceFile) : List (List Bool) :=
  f.statements.filterMap fun st =>
    match st with
    | .classDecl _ members => some (members.map fun member =>
        match member with
        | .method m => isWrappedBody m.body
        | _ => false)
    | _ => none

/-- A user configuration whose merge with the defaults has
`spanNamePrefix: undefined` (the key present but undefined, as produced
by the object spread) and an empty-string `exclude` pattern. -/
def badUserConfig : RawConfig :=
  { include_ := some (.arr [.str "**/*.ts"]), exclude := some (.arr [.str ""]),
    spanNamePfx := some .undef }

/-- Configuration used by the C4 witness: a path can match both lists. -/
def cfgBoth : TracingConfig :=
  { DEFAULT_CONFIG with include_ := ["**/*.ts"], exclude := ["**/*.test.ts"] }

/-- Configuration used by the C5 witness: a name in both method lists. -/
def cfgBothMethods : TracingConfig :=
  { DEFAULT_CONFIG with
    includeMethods := some ["get*"]
    excludeMethods := some ["getUser"] }

/-- The ineligible-file scenario of the spec: `TestController.ts` under
`include: ["**/*Service.ts"]`. -/
def cfgServiceOnly : TracingConfig :=
  { DEFAULT_CONFIG with include_ := ["**/*Service.ts"] }

def fileController : SourceFile :=
  { fileName := "TestController.ts",
    statements := [.classDecl (some "TestController") [.method mPlain]] }

def ctxServiceOnly : TransformContext :=
  { config := cfgServiceOnly, sourceFile := "", hasTracerImport := false }

/-! ## Shared lemmas -/

/-- The `.*` continuation before the end anchor accepts exactly the
remainders free of line terminators. -/
theorem tryStarAny_isEmpty (l : List Char) :
    tryStarAny (fun x => List.isEmpty x) l = l.all (fun c => !isLineTerminator c) := by
  induction l with
  | nil => rfl
  | cons d ds ih => simp [tryStarAny, ih, List.all_cons]

/-- `.*` (from `**`) matches exactly the strings free of line
terminators (flagless `.` does not match `\n`, `\r`, U+2028, U+2029). -/
theorem matchElems_starAny (l : List Char) :
    matchElems [.starAny] l = l.all (fun c => !isLineTerminator c) := by
  have h := tryStarAny_isEmpty l
  simpa [matchElems] using h

/-- The `[^/]*` continuation before the end anchor accepts exactly the
separator-free remainders. -/
theorem tryStarNoSlash_isEmpty (l : List Char) :
    tryStarNoSlash (fun x => List.isEmpty x) l = !l.contains '/' := by
  induction l with
  | nil => rfl
  | cons d ds ih =>
    by_cases h : d = '/'
    · subst h; simp [tryStarNoSlash, List.contains_cons]
    · simp [tryStarNoSlash, List.contains_cons, ih, h, Ne.symm h]

/-- `[^/]*` (from a single `*`) matches exactly the separator-free
strings. -/
theorem matchElems_starNoSlash (l : List Char) :
    matchElems [.starNoSlash] l = !l.contains '/' := by
  have h := tryStarNoSlash_isEmpty l
  simpa [matchElems] using h

/-- A literal-only element list matches exactly the identical string
(whole-string anchoring). -/
theorem matchElems_lits (cs l : List Char) :
    matchElems (cs.map GlobElem.lit) l = true ↔ cs = l := by
  induction cs generalizing l with
  | nil => cases l <;> simp [matchElems]
  | cons c cs ih =>
    cases l with
    | nil => simp [matchElems]
    | cons d ds => simp [matchElems, ih]

/-- Path normalisation is idempotent. -/
theorem normalizePath_idem (s : String) :
    normalizePath (normalizePath s) = normalizePath s := by
  unfold normalizePath
  simp only [List.map_map]
  congr 1
  apply List.map_congr_left
  intro c _
  by_cases h : c = '\\' <;> simp [h]

/-! ## Claim C10 — `wrapMethodWithSpan` changes only the body -/

/-- C10: for every method it rewrites, `wrapMethodWithSpan` keeps the
modifiers, asterisk token, name, question token, type parameters,
parameter list and declared return type of the input method, changing
only the body. -/
theorem claim_C10_wrap_preserves_signature (method : MethodDecl) (context : TransformContext) :
    (wrapMethodWithSpan method context).modifiers = method.modifiers ∧
    (wrapMethodWithSpan method context).asteriskTok = method.asteriskTok ∧
    (wrapMethodWithSpan method context).name = method.name ∧
    (wrapMethodWithSpan method context).questionTok = method.questionTok ∧
    (wrapMethodWithSpan method context).typeParams = method.typeParams ∧
    (wrapMethodWithSpan method context).params = method.params ∧
    (wrapMethodWithSpan method context).retType = method.retType :=
  ⟨rfl, rfl, rfl, rfl, rfl, rfl, rfl⟩

/-! ## Claim C9 — ineligible files pass through unchanged -/

/-- C9: for every file whose path is ineligible under the
include/exclude rules, `visitSourceFile` returns the source file
unchanged: no method is rewritten and no entry-point import is added. -/
theorem claim_C9_ineligible_file_identity (sourceFile : SourceFile)
    (ctx : TransformContext)
    (h : shouldTransformFile sourceFile.fileName ctx.config = false) :
    visitSourceFile sourceFile ctx = sourceFile := by
  simp [visitSourceFile, h]

/-- Witness for C9: the spec scenario — `TestController.ts` under
`include: ["**/*Service.ts"]` is returned unchanged. -/
theorem claim_C9_witness :
    shouldTransformFile fileController.fileName ctxServiceOnly.config = false ∧
    visitSourceFile fileController ctxServiceOnly = fileController :=
  ⟨by decide, claim_C9_ineligible_file_identity fileController ctxServiceOnly (by decide)⟩

/-! ## Claim C4 — file eligibility, exclusion wins -/

/-- C4: `shouldTransformFile` returns true iff the normalised path
matches at least one include pattern and no exclude pattern; in
particular a path matching some exclude pattern is always rejected. -/
theorem claim_C4_exclude_wins (fileName : String) (config : TracingConfig) :
    (shouldTransformFile fileName config =
      ((config.include_.any fun p => globTest (createGlobRegex p) (normalizePath fileName)) &&
       !(config.exclude.any fun p => globTest (createGlobRegex p) (normalizePath fileName)))) ∧
    ((config.exclude.any fun p => globTest (createGlobRegex p) (normalizePath fileName)) = true →
      shouldTransformFile fileName config = false) := by
  constructor
  · cases hE : config.exclude.any fun p => globTest (createGlobRegex p) (normalizePath fileName) <;>
      simp [shouldTransformFile, hE]
  · intro hE
    simp [shouldTransformFile, hE]

/-- Witness for C4: `a.test.ts` matches both the include pattern
`**/*.ts` and the exclude pattern `**/*.test.ts`, and is rejected. -/
theorem claim_C4_witness :
    ((cfgBoth.include_.any fun p => globTest (createGlobRegex p) (normalizePath "a.test.ts")) = true) ∧
    ((cfgBoth.exclude.any fun p => globTest (createGlobRegex p) (normalizePath "a.test.ts")) = true) ∧
    shouldTransformFile "a.test.ts" cfgBoth = false :=
  ⟨by decide, by decide, (claim_C4_exclude_wins "a.test.ts" cfgBoth).2 (by decide)⟩

/-! ## Claim C5 — `includeMethods` priority -/

/-- C5: with a non-empty `includeMethods` list, `shouldInstrumentMethod`
(after the private-method check) accepts iff the name matches some
pattern or exact string of that list, and `excludeMethods` is ignored
entirely, even for names present in both lists. -/
theorem claim_C5_includeMethods_priority (config : TracingConfig) (methodName : String)
    (incl : List String) (hIncl : config.includeMethods = some incl)
    (hNonempty : 0 < incl.length) :
    ((config.instrumentPrivateMethods = true ∨ startsWithUnderscore methodName = false) →
      shouldInstrumentMethod methodName config = matchesMethodPattern methodName incl) ∧
    (∀ ex, shouldInstrumentMethod methodName { config with excludeMethods := ex } =
      shouldInstrumentMethod methodName config) := by
  constructor
  · intro hPriv
    have hCond : (!config.instrumentPrivateMethods && startsWithUnderscore methodName) = false := by
      rcases hPriv with h | h <;> simp [h]
    simp [shouldInstrumentMethod, hCond, hIncl, hNonempty]
  · intro ex
    by_cases hCond : (!config.instrumentPrivateMethods && startsWithUnderscore methodName) = true
    · simp [shouldInstrumentMethod, hCond]
    · simp only [Bool.not_eq_true] at hCond
      simp [shouldInstrumentMethod, hCond, hIncl, hNonempty]

/-- Witness for C5: `getUser` is in both lists (`includeMethods =
["get*"]`, `excludeMethods = ["getUser"]`); the include list alone
decides, and dropping the exclude list does not change the result. -/
theorem claim_C5_witness :
    shouldInstrumentMethod "getUser" cfgBothMethods = matchesMethodPattern "getUser" ["get*"] ∧
    shouldInstrumentMethod "getUser" { cfgBothMethods with excludeMethods := none } =
      shouldInstrumentMethod "getUser" cfgBothMethods :=
  ⟨(claim_C5_includeMethods_priority cfgBothMethods "getUser" ["get*"] rfl (by decide)).1
      (Or.inl rfl),
   (claim_C5_includeMethods_priority cfgBothMethods "getUser" ["get*"] rfl (by decide)).2 none⟩

/-! ## Claim C6 — glob pattern semantics -/

/-- C6 (failing as stated): the source compiles `**` to `.*` in a
flagless `RegExp`, whose `.` does not match line terminators, so the
compiled matcher for `**` rejects the two-character-plus-newline string
`"a\nb"` — the claim's "`**` matches zero or more characters including
separators" would require it to match. -/
theorem claim_C6_counterexample_newline_not_matched :
    globTest (createGlobRegex "**") "a\nb" = false := by decide

/-- C6 (amended): the compiled file-path matcher is anchored at both
ends (a literal-only pattern matches exactly itself), `*` matches any
separator-free string (including line terminators, being the negated
class `[^/]`), `**` matches any string free of line terminators
(flagless `.` semantics) including path separators, a pattern starting
with `**/` also matches when the leading segment is absent
(`**/*service.ts` matches both `src/user.service.ts` and
`user.service.ts`), and backslashes in the candidate path are
normalised to `/` before matching. -/
theorem claim_C6_glob_semantics :
    (∀ s : String, globTest (createGlobRegex "**") s =
      s.data.all (fun c => !isLineTerminator c)) ∧
    (∀ s : String, globTest (createGlobRegex "*") s = !s.data.contains '/') ∧
    (∀ s : String, globTest (createGlobRegex "b.ts") s = true ↔ s = "b.ts") ∧
    globTest (createGlobRegex "**/*service.ts") "src/user.service.ts" = true ∧
    globTest (createGlobRegex "**/*service.ts") "user.service.ts" = true ∧
    (∀ (fileName : String) (config : TracingConfig),
      shouldTransformFile fileName config = shouldTransformFile (normalizePath fileName) config) ∧
    shouldTransformFile "src\\user.service.ts" DEFAULT_CONFIG = true := by
  refine ⟨?_, ?_, ?_, by decide, by decide, ?_, by decide⟩
  · intro s
    have h : createGlobRegex "**" = ⟨false, [.starAny]⟩ := by decide
    rw [h]
    simpa [globTest] using matchElems_starAny s.data
  · intro s
    have h : createGlobRegex "*" = ⟨false, [.starNoSlash]⟩ := by decide
    rw [h]
    simpa [globTest] using matchElems_starNoSlash s.data
  · intro s
    have h : createGlobRegex "b.ts" =
        ⟨false, ['b', '.', 't', 's'].map GlobElem.lit⟩ := by decide
    rw [h]
    simp only [globTest, if_neg (by decide : ¬false = true)]
    rw [matchElems_lits]
    constructor
    · intro hdata
      exact String.ext_iff.mpr (show s.data = String.data "b.ts" from hdata.symm)
    · intro hs
      subst hs
      rfl
  · intro fileName config
    simp [shouldTransformFile, normalizePath_idem]

/-! ## Claim C1 — span termination of the four wrapper shapes -/

/-- C1 (failing for the generator shape): the wrapper produced for a
synchronous generator method has a try/catch with no finally clause and
no `span.end()` call anywhere, so on a successful iteration (here of
`*genSeq() { yield 7; }`) the span is marked OK but never ended — zero
`ended` events are emitted, where the claim requires exactly one on
every exit path. -/
theorem claim_C1_generator_wrapper_never_ends_span :
    (∀ b : List Stmt, createSyncGeneratorTryCatchBlock b =
      [Stmt.tryCatchFinally [Stmt.forwardIterate b, Stmt.setStatusOk]
        [Stmt.recordException, Stmt.setStatusError, Stmt.throwCaught] none]) ∧
    (runRewrittenMethod mGen baseCtx).2.count SpanEvent.ended = 0 ∧
    (runRewrittenMethod mGen baseCtx).2.count SpanEvent.setOk = 1 :=
  ⟨fun _ => rfl, by decide, by decide⟩

/-! ## Claim C2 — `maxMethodsPerFile` is never enforced -/

/-- C2 (failing): the tree traversal keeps no per-file counter and never
reads `maxMethodsPerFile`: transforming any file under any configuration
gives the same result for every value of the limit, and concretely a
file with two eligible methods under `maxMethodsPerFile = 1` gets both
methods rewritten. -/
theorem claim_C2_maxMethodsPerFile_not_enforced :
    (∀ (f : SourceFile) (ctx : TransformContext) (n : Option Nat),
      visitSourceFile f { ctx with config := { ctx.config with maxMethodsPerFile := n } } =
        visitSourceFile f ctx) ∧
    cfgLimit1.maxMethodsPerFile = some 1 ∧
    wrappedFlags (visitSourceFile fileC2 ctxLimit1) = [[true, true]] :=
  ⟨fun _ _ _ => rfl, rfl, by decide⟩

/-! ## Claim C8 — entry-point injection is one-shot -/

/-- On an eligible file that already has an entry point, the transform
only maps the statements (no preamble is added). -/
theorem visitSourceFile_statements_hasImport (f : SourceFile) (ctx : TransformContext)
    (hElig : shouldTransformFile f.fileName ctx.config = true)
    (hHas : hasExistingTracerImport f = true) :
    (visitSourceFile f ctx).statements =
      f.statements.map (transformTopStmt
        { ctx with
          sourceFile := f.fileName
          hasTracerImport := hasExistingTracerImport f }) := by
  simp [visitSourceFile, hElig, hHas]

/-- C8: on an eligible file with auto-injection enabled, the transform
prepends exactly the two-statement tracer preamble when no entry point
(tracing-API import naming one of the three well-known symbols, or a
variable named `tracer`) is present, and adds nothing when one is; after
an injection the output file is detected as having an entry point, so a
second transform adds no further statements. -/
theorem claim_C8_entry_point_injected_once (file : SourceFile) (ctx : TransformContext)
    (hAuto : ctx.config.autoInjectTracer = true)
    (hElig : shouldTransformFile file.fileName ctx.config = true) :
    (hasExistingTracerImport file = false →
      (visitSourceFile file ctx).statements =
        createTracerImports ++ file.statements.map (transformTopStmt
          { ctx with
            sourceFile := file.fileName
            hasTracerImport := hasExistingTracerImport file }) ∧
      createTracerImports.length = 2 ∧
      hasExistingTracerImport (visitSourceFile file ctx) = true ∧
      (visitSourceFile (visitSourceFile file ctx) ctx).statements.length =
        (visitSourceFile file ctx).statements.length) ∧
    (hasExistingTracerImport file = true →
      (visitSourceFile file ctx).statements =
        file.statements.map (transformTopStmt
          { ctx with
            sourceFile := file.fileName
            hasTracerImport := hasExistingTracerImport file })) := by
  constructor
  · intro hNo
    have hVS : visitSourceFile file ctx =
        { file with statements := createTracerImports ++ file.statements.map (transformTopStmt
            { ctx with
              sourceFile := file.fileName
              hasTracerImport := hasExistingTracerImport file }) } := by
      simp [visitSourceFile, hElig, hAuto, hNo]
    have hDetect : hasExistingTracerImport (visitSourceFile file ctx) = true := by
      rw [hVS]
      simp [hasExistingTracerImport, createTracerImports]
    refine ⟨by rw [hVS], rfl, hDetect, ?_⟩
    have hName : (visitSourceFile file ctx).fileName = file.fileName := by
      rw [hVS]
    have hElig2 : shouldTransformFile (visitSourceFile file ctx).fileName ctx.config = true := by
      rw [hName]; exact hElig
    rw [visitSourceFile_statements_hasImport (visitSourceFile file ctx) ctx hElig2 hDetect]
    exact List.length_map _ _
  · intro hHas
    simp [visitSourceFile, hElig, hAuto, hHas]

/-- Witness for C8: the fixture file (no tracer import) gets exactly the
two-statement preamble prepended, and the output is detected as already
instrumented. -/
theorem claim_C8_witness :
    (visitSourceFile fileC2 ctxLimit1).statements =
      createTracerImports ++ fileC2.statements.map (transformTopStmt
        { ctxLimit1 with
          sourceFile := fileC2.fileName
          hasTracerImport := hasExistingTracerImport fileC2 }) ∧
    hasExistingTracerImport (visitSourceFile fileC2 ctxLimit1) = true :=
  ⟨((claim_C8_entry_point_injected_once fileC2 ctxLimit1 rfl (by decide)).1 (by decide)).1,
   ((claim_C8_entry_point_injected_once fileC2 ctxLimit1 rfl (by decide)).1 (by decide)).2.2.1⟩

/-! ## Semantic lemmas for the success-marking analysis (claim C3) -/

/-- Sequencing: executing an appended list when the first part completes
normally. -/
theorem execStmts_append_normal (a b : List Stmt) (c : Option Int) (ev : List SpanEvent)
    (h : execStmts a c = (Outcome.normal, ev)) :
    execStmts (a ++ b) c = ((execStmts b c).1, ev ++ (execStmts b c).2) := by
  induction a generalizing ev with
  | nil =>
    simp only [execStmts] at h
    cases h
    simp [execStmts]
  | cons s rest ih =>
    simp only [execStmts] at h ⊢
    cases ho : (execStmt s c).1 with
    | normal =>
      simp only [ho] at h ⊢
      cases hr : execStmts rest c with
      | mk o2 ev2 =>
        simp only [hr] at h
        cases h with
        | refl =>
          have := ih ev2 hr
          simp [List.cons_append, this, List.append_assoc]
    | ret v => simp only [ho] at h; cases h
    | thrown e => simp only [ho] at h; cases h

/-- Sequencing: executing an appended list when the first part completes
abruptly. -/
theorem execStmts_append_abrupt (a b : List Stmt) (c : Option Int) (o : Outcome)
    (ev : List SpanEvent) (h : execStmts a c = (o, ev)) (ho : o ≠ Outcome.normal) :
    execStmts (a ++ b) c = (o, ev) := by
  induction a generalizing ev with
  | nil =>
    simp only [execStmts] at h
    cases h
    exact absurd rfl ho
  | cons s rest ih =>
    simp only [execStmts] at h ⊢
    cases hs : (execStmt s c).1 with
    | normal =>
      simp only [hs] at h ⊢
      cases hr : execStmts rest c with
      | mk o2 ev2 =>
        simp only [hr] at h
        cases h with
        | refl =>
          have := ih ev2 hr
          simp [List.cons_append, this, List.append_assoc]
    | ret v =>
      simp only [hs] at h ⊢
      exact h
    | thrown e =>
      simp only [hs] at h ⊢
      exact h

/-- A non-`return` statement passes through the injection loop
unchanged. -/
theorem injectOk_cons_ne_ret (s : Stmt) (rest : List Stmt) (h : ∀ e, s ≠ Stmt.ret e) :
    injectOkStatements (s :: rest) =
      (s :: (injectOkStatements rest).1, (injectOkStatements rest).2) := by
  cases s <;> first
    | exact absurd rfl (h _)
    | simp [injectOkStatements]

/-- Unpacking `topLevelBody` at a non-`return` head statement. -/
theorem topLevelBody_cons_elim (s : Stmt) (rest : List Stmt)
    (h : topLevelBody (s :: rest) = true) (hne : ∀ e, s ≠ Stmt.ret e) :
    topRetFree s = true ∧ topLevelBody rest = true := by
  simp only [topLevelBody, List.all_cons, Bool.and_eq_true] at h
  refine ⟨?_, h.2⟩
  cases s <;> first
    | exact absurd rfl (hne _)
    | simpa using h.1

mutual

/-- Executing a return-free user statement never produces a `ret`
outcome and emits no `setOk` event. -/
theorem execStmt_topRetFree (s : Stmt) (c : Option Int) (h : topRetFree s = true) :
    (execStmt s c).2.count SpanEvent.setOk = 0 ∧ ∀ v, (execStmt s c).1 ≠ Outcome.ret v := by
  cases s with
  | skip => simp [execStmt]
  | yieldV v => simp [execStmt]
  | throwE e => simp [execStmt]
  | ifStmt cond t e =>
    simp only [topRetFree, Bool.and_eq_true] at h
    cases cond with
    | false => simpa [execStmt] using execStmts_topRetFree e c h.2
    | true => simpa [execStmt] using execStmts_topRetFree t c h.1
  | ret e => simp [topRetFree] at h
  | setStatusOk => simp [topRetFree] at h
  | setStatusError => simp [topRetFree] at h
  | recordException => simp [topRetFree] at h
  | spanEnd => simp [topRetFree] at h
  | throwCaught => simp [topRetFree] at h
  | tryCatchFinally t c' f => simp [topRetFree] at h
  | retStartActiveSpan n a g cb => simp [topRetFree] at h
  | startSpanDecl n a => simp [topRetFree] at h
  | forwardIterate inner => simp [topRetFree] at h

/-- List version of `execStmt_topRetFree`. -/
theorem execStmts_topRetFree (l : List Stmt) (c : Option Int) (h : topRetFreeList l = true) :
    (execStmts l c).2.count SpanEvent.setOk = 0 ∧ ∀ v, (execStmts l c).1 ≠ Outcome.ret v := by
  cases l with
  | nil => simp [execStmts]
  | cons s rest =>
    simp only [topRetFreeList, Bool.and_eq_true] at h
    have h1 := execStmt_topRetFree s c h.1
    have h2 := execStmts_topRetFree rest c h.2
    simp only [execStmts]
    cases ho : (execStmt s c).1 with
    | normal =>
      simp only [ho]
      constructor
      · simp [List.count_append]
        constructor
        · have := h1.1
          simpa [ho] using this
        · exact h2.1
      · exact h2.2
    | ret v => exact absurd ho (h1.2 v)
    | thrown e =>
      simp only [ho]
      refine ⟨?_, by intro v hv; cases hv⟩
      have := h1.1
      simpa [ho] using this
end

/-- Executing the OK-injected form of a user body whose returns are all
top-level: a `ret` outcome carries exactly one `setOk` event, an
exception carries none, and a normal completion carries none and can
only happen when the body had no top-level return. -/
theorem injectOk_exec (l : List Stmt) (c : Option Int) (h : topLevelBody l = true) :
    (∀ v, (execStmts (injectOkStatements l).1 c).1 = Outcome.ret v →
      (execStmts (injectOkStatements l).1 c).2.count SpanEvent.setOk = 1) ∧
    (∀ x, (execStmts (injectOkStatements l).1 c).1 = Outcome.thrown x →
      (execStmts (injectOkStatements l).1 c).2.count SpanEvent.setOk = 0) ∧
    ((execStmts (injectOkStatements l).1 c).1 = Outcome.normal →
      (execStmts (injectOkStatements l).1 c).2.count SpanEvent.setOk = 0 ∧
      (injectOkStatements l).2 = false) := by
  induction l with
  | nil => simp [injectOkStatements, execStmts]
  | cons s rest ih =>
    by_cases hret : ∃ e, s = Stmt.ret e
    · obtain ⟨e, rfl⟩ := hret
      have hinj : injectOkStatements (Stmt.ret e :: rest) =
          (Stmt.setStatusOk :: Stmt.ret e :: (injectOkStatements rest).1, true) := by
        simp [injectOkStatements]
      rw [hinj]
      have hexec : execStmts (Stmt.setStatusOk :: Stmt.ret e :: (injectOkStatements rest).1) c =
          (Outcome.ret e, [SpanEvent.setOk]) := rfl
      rw [hexec]
      refine ⟨?_, ?_, ?_⟩
      · intro v _
        simp
      · intro x hx
        simp at hx
      · intro hn
        simp at hn
    · have hne : ∀ e, s ≠ Stmt.ret e := by
        intro e he
        exact hret ⟨e, he⟩
      obtain ⟨hFree, hTopRest⟩ := topLevelBody_cons_elim s rest h hne
      have ihr := ih hTopRest
      rw [injectOk_cons_ne_ret s rest hne]
      have hs := execStmt_topRetFree s c hFree
      simp only [execStmts]
      cases ho : (execStmt s c).1 with
      | normal =>
        simp only [ho]
        refine ⟨fun v hv => ?_, fun x hx => ?_, fun hn => ?_⟩
        · simp only [List.count_append, hs.1, Nat.zero_add]
          exact ihr.1 v hv
        · simp only [List.count_append, hs.1, Nat.zero_add]
          exact ihr.2.1 x hx
        · refine ⟨?_, (ihr.2.2 hn).2⟩
          simp only [List.count_append, hs.1, Nat.zero_add]
          exact (ihr.2.2 hn).1
      | ret v => exact absurd ho (hs.2 v)
      | thrown e =>
        simp only [ho]
        refine ⟨?_, ?_, ?_⟩
        · intro v hv
          simp at hv
        · intro x _
          exact hs.1
        · intro hn
          simp at hn

/-- Executing the injector's try/catch/finally shape: the outcome of the
try block is preserved (the catch clause rethrows), the catch clause
contributes `recorded, setError` on the error path, and the finally
block appends exactly one `ended` event. -/
theorem exec_tryCatchFinally_shape (t : List Stmt) (c : Option Int) :
    execStmts [Stmt.tryCatchFinally t
      [Stmt.recordException, Stmt.setStatusError, Stmt.throwCaught] (some [Stmt.spanEnd])] c =
    ((execStmts t c).1,
      (execStmts t c).2 ++
        (match (execStmts t c).1 with
         | Outcome.thrown _ => [SpanEvent.recorded, SpanEvent.setError]
         | _ => []) ++ [SpanEvent.ended]) := by
  cases hrt : execStmts t c with
  | mk o ev => cases o <;> simp [execStmts, execStmt, hrt]

/-- Executing the full `createTryCatchBlock` wrapper body of a user body
whose returns are all top-level: every successful completion (explicit
return or fall-through) carries exactly one `setOk` event, and an
exception carries none. -/
theorem createTryCatchBlock_exec (b : List Stmt) (fl : Bool) (c : Option Int)
    (h : topLevelBody b = true) :
    (∀ v, (execStmts (createTryCatchBlock b fl) c).1 = Outcome.ret v →
      (execStmts (createTryCatchBlock b fl) c).2.count SpanEvent.setOk = 1) ∧
    (∀ x, (execStmts (createTryCatchBlock b fl) c).1 = Outcome.thrown x →
      (execStmts (createTryCatchBlock b fl) c).2.count SpanEvent.setOk = 0) ∧
    ((execStmts (createTryCatchBlock b fl) c).1 = Outcome.normal →
      (execStmts (createTryCatchBlock b fl) c).2.count SpanEvent.setOk = 1) := by
  have hinj := injectOk_exec b c h
  have hshape := exec_tryCatchFinally_shape
    (if (injectOkStatements b).2 then (injectOkStatements b).1
     else (injectOkStatements b).1 ++ [Stmt.setStatusOk]) c
  have hblock : createTryCatchBlock b fl =
      [Stmt.tryCatchFinally
        (if (injectOkStatements b).2 then (injectOkStatements b).1
         else (injectOkStatements b).1 ++ [Stmt.setStatusOk])
        [Stmt.recordException, Stmt.setStatusError, Stmt.throwCaught] (some [Stmt.spanEnd])] := by
    simp [createTryCatchBlock]
  rw [hblock, hshape]
  cases hflag : (injectOkStatements b).2 with
  | true =>
    simp only [hflag, if_true]
    cases hra : execStmts (injectOkStatements b).1 c with
    | mk o ev =>
      cases o with
      | normal =>
        have := (hinj.2.2 (by rw [hra])).2
        rw [this] at hflag
        cases hflag
      | ret v =>
        have h1 : ev.count SpanEvent.setOk = 1 := by
          have := hinj.1 v (by rw [hra])
          rwa [hra] at this
        refine ⟨fun w hw => ?_, fun x hx => by simp at hx, fun hn => by simp at hn⟩
        simp [List.count_append, h1]
      | thrown x =>
        have h0 : ev.count SpanEvent.setOk = 0 := by
          have := hinj.2.1 x (by rw [hra])
          rwa [hra] at this
        refine ⟨fun w hw => by simp at hw, fun y hy => ?_, fun hn => by simp at hn⟩
        simp [List.count_append, h0]
  | false =>
    simp only [hflag, Bool.false_eq_true, if_false]
    cases hra : execStmts (injectOkStatements b).1 c with
    | mk o ev =>
      cases o with
      | normal =>
        have h0 : ev.count SpanEvent.setOk = 0 := by
          have := (hinj.2.2 (by rw [hra])).1
          rwa [hra] at this
        have happ := execStmts_append_normal (injectOkStatements b).1 [Stmt.setStatusOk] c ev hra
        rw [happ]
        refine ⟨fun w hw => ?_, fun x hx => by simp [execStmts, execStmt] at hx,
          fun hn => ?_⟩ <;>
          simp [execStmts, execStmt, List.count_append, h0]
      | ret v =>
        have h1 : ev.count SpanEvent.setOk = 1 := by
          have := hinj.1 v (by rw [hra])
          rwa [hra] at this
        have happ := execStmts_append_abrupt (injectOkStatements b).1 [Stmt.setStatusOk] c
          (Outcome.ret v) ev hra (by intro hc; cases hc)
        rw [happ]
        refine ⟨fun w hw => ?_, fun x hx => by simp at hx, fun hn => by simp at hn⟩
        simp [List.count_append, h1]
      | thrown x =>
        have h0 : ev.count SpanEvent.setOk = 0 := by
          have := hinj.2.1 x (by rw [hra])
          rwa [hra] at this
        have happ := execStmts_append_abrupt (injectOkStatements b).1 [Stmt.setStatusOk] c
          (Outcome.thrown x) ev hra (by intro hc; cases hc)
        rw [happ]
        refine ⟨fun w hw => by simp at hw, fun y hy => ?_, fun hn => by simp at hn⟩
        simp [List.count_append, h0]

/-! ## Claim C3 — success marking of plain/async wrappers -/

/-- C3 (failing as stated): a successful exit through a `return` nested
inside another statement is not marked OK.  For
`m() { if (true) { return 1; } return 2; }` the rewritten method returns
1 successfully, yet zero `setOk` events are emitted, where the claim
requires exactly one per successful exit. -/
theorem claim_C3_counterexample_nested_return_not_marked :
    (runRewrittenMethod mNested baseCtx).1 = Outcome.ret (some 1) ∧
    (runRewrittenMethod mNested baseCtx).2.count SpanEvent.setOk = 0 :=
  ⟨rfl, by decide⟩

/-- Executing `return tracer.startActiveSpan(name, attrs, cb)`: the span
start is recorded, the callback runs in a fresh scope, and its
completion becomes the method's completion. -/
theorem exec_retStartActiveSpan (n : String) (a : SpanAttrs) (g : Bool) (cb : List Stmt)
    (c : Option Int) :
    execStmts [Stmt.retStartActiveSpan n a g cb] c =
      (match (execStmts cb none).1 with
       | Outcome.ret v => Outcome.ret v
       | Outcome.normal => Outcome.ret none
       | Outcome.thrown e => Outcome.thrown e,
       SpanEvent.started n :: (execStmts cb none).2) := by
  cases hr : execStmts cb none with
  | mk o ev => cases o <;> simp [execStmts, execStmt, hr]

/-- C3 (amended): for a rewritten plain or asynchronous method whose
original body has all its `return` statements at the top level of the
body block, the generated body marks the span OK exactly once per
successful exit (explicit return or fall-through), and not at all when
the body throws. -/
theorem claim_C3_ok_marked_once_for_top_level_returns
    (method : MethodDecl) (context : TransformContext) (b : List Stmt)
    (hBody : method.body = some b) (hShape : method.asteriskTok = false)
    (hTop : topLevelBody b = true) :
    (∀ v, (runRewrittenMethod method context).1 = Outcome.ret v →
      (runRewrittenMethod method context).2.count SpanEvent.setOk = 1) ∧
    (∀ x, (runRewrittenMethod method context).1 = Outcome.thrown x →
      (runRewrittenMethod method context).2.count SpanEvent.setOk = 0) := by
  have key : ∀ (sn : String) (a : SpanAttrs) (fl : Bool),
      (∀ v, (execStmts [Stmt.retStartActiveSpan sn a false (createTryCatchBlock b fl)] none).1 =
          Outcome.ret v →
        (execStmts [Stmt.retStartActiveSpan sn a false
          (createTryCatchBlock b fl)] none).2.count SpanEvent.setOk = 1) ∧
      (∀ x, (execStmts [Stmt.retStartActiveSpan sn a false (createTryCatchBlock b fl)] none).1 =
          Outcome.thrown x →
        (execStmts [Stmt.retStartActiveSpan sn a false
          (createTryCatchBlock b fl)] none).2.count SpanEvent.setOk = 0) := by
    intro sn a fl
    have hcb := createTryCatchBlock_exec b fl none hTop
    rw [exec_retStartActiveSpan]
    cases ho : (execStmts (createTryCatchBlock b fl) none).1 with
    | normal =>
      simp only [ho]
      refine ⟨fun v _ => ?_, fun x hx => by simp at hx⟩
      simp only [List.count_cons]
      simp [hcb.2.2 ho]
    | ret v =>
      simp only [ho]
      refine ⟨fun w _ => ?_, fun x hx => by simp at hx⟩
      simp only [List.count_cons]
      simp [hcb.1 v ho]
    | thrown e =>
      simp only [ho]
      refine ⟨fun w hw => by simp at hw, fun x _ => ?_⟩
      simp only [List.count_cons]
      simp [hcb.2.1 e ho]
  cases hA : method.modifiers.contains Modifier.asyncMod with
  | true =>
    have hw : runRewrittenMethod method context =
        execStmts [Stmt.retStartActiveSpan
          (context.config.spanNamePfx ++ "." ++ context.className.getD "UnknownClass" ++ "." ++
            method.name.getD "unknown")
          (createAttributesObject method context) false (createTryCatchBlock b true)] none := by
      simp only [runRewrittenMethod, wrapMethodWithSpan, hShape, hA, Bool.false_and,
        Bool.false_eq_true, if_false, if_true, createAsyncSpanWrapper, hBody,
        Option.getD_some]
    rw [hw]
    exact key _ _ true
  | false =>
    have hw : runRewrittenMethod method context =
        execStmts [Stmt.retStartActiveSpan
          (context.config.spanNamePfx ++ "." ++ context.className.getD "UnknownClass" ++ "." ++
            method.name.getD "unknown")
          (createAttributesObject method context) false (createTryCatchBlock b false)] none := by
      simp only [runRewrittenMethod, wrapMethodWithSpan, hShape, hA, Bool.false_and,
        Bool.false_eq_true, if_false, if_true, createSyncSpanWrapper, hBody,
        Option.getD_some]
    rw [hw]
    exact key _ _ false

/-- Witness for C3 (amended): the fixture method
`getData() { return 1; }` has only top-level returns; its rewritten form
emits exactly one `setOk` event. -/
theorem claim_C3_witness :
    topLevelBody [Stmt.ret (some 1)] = true ∧
    (runRewrittenMethod mPlain baseCtx).2.count SpanEvent.setOk = 1 :=
  ⟨by decide,
   (claim_C3_ok_marked_once_for_top_level_returns mPlain baseCtx [Stmt.ret (some 1)]
      rfl rfl (by decide)).1 (some 1) rfl⟩

/-! ## Validation lemmas (claim C7) -/

/-- Emptiness of a push-per-bad-element error list. -/
theorem filterMap_nil_iff {α β : Type} (l : List α) (p : α → Bool) (f : α → β) :
    ((l.filter p).map f = []) ↔ l.all (fun x => !p x) = true := by
  rw [List.map_eq_nil_iff, List.filter_eq_nil_iff]
  simp [List.all_eq_true]

theorem includeFieldErrors_nil (v : JVal) :
    includeFieldErrors v = [] ↔ includeOkSpec v = true := by
  cases v with
  | arr l =>
    by_cases hnil : l = []
    · subst hnil
      simp [includeFieldErrors, includeOkSpec, JVal.truthy]
    · have hlen : (l.length == 0) = false := by
        simp [List.length_eq_zero, hnil]
      simp [includeFieldErrors, includeOkSpec, JVal.truthy, hlen, hnil, filterMap_nil_iff,
        List.all_eq_true, List.length_eq_zero]
  | undef => simp [includeFieldErrors, includeOkSpec, JVal.truthy]
  | jnull => simp [includeFieldErrors, includeOkSpec, JVal.truthy]
  | jbool b => simp [includeFieldErrors, includeOkSpec, JVal.truthy]
  | num n => simp [includeFieldErrors, includeOkSpec, JVal.truthy]
  | str s => simp [includeFieldErrors, includeOkSpec, JVal.truthy]
  | obj fields => simp [includeFieldErrors, includeOkSpec, JVal.truthy]

theorem excludeFieldErrors_nil (v : JVal) :
    excludeFieldErrors v = [] ↔ excludeOkSpec v = true := by
  cases v with
  | arr l =>
    simp [excludeFieldErrors, excludeOkSpec, JVal.truthy, filterMap_nil_iff, List.all_eq_true]
  | undef => simp [excludeFieldErrors, excludeOkSpec, JVal.truthy]
  | jnull => simp [excludeFieldErrors, excludeOkSpec, JVal.truthy]
  | jbool b => cases b <;> simp [excludeFieldErrors, excludeOkSpec, JVal.truthy]
  | num n =>
    by_cases hn : n = 0 <;> simp [excludeFieldErrors, excludeOkSpec, JVal.truthy, hn]
  | str s =>
    by_cases hs : s = "" <;> simp [excludeFieldErrors, excludeOkSpec, JVal.truthy, hs]
  | obj fields => simp [excludeFieldErrors, excludeOkSpec, JVal.truthy]

theorem spanNamePfxErrors_nil (v : JVal) :
    spanNamePfxErrors v = [] ↔ spanNamePfxOkSpec v = true := by
  cases hv : v.truthy <;> cases hs : v.isStr <;>
    simp [spanNamePfxErrors, spanNamePfxOkSpec, hv, hs]

theorem maxMethodsErrors_nil (v : JVal) :
    maxMethodsErrors v = [] ↔ maxMethodsOkSpec v = true := by
  cases v with
  | num n =>
    by_cases hn : n < 1
    · simp [maxMethodsErrors, maxMethodsOkSpec, hn, Int.not_le.mpr hn]
    · simp [maxMethodsErrors, maxMethodsOkSpec, hn, Int.not_lt.mp hn]
  | undef => simp [maxMethodsErrors, maxMethodsOkSpec]
  | jnull => simp [maxMethodsErrors, maxMethodsOkSpec]
  | jbool b => simp [maxMethodsErrors, maxMethodsOkSpec]
  | str s => simp [maxMethodsErrors, maxMethodsOkSpec]
  | arr l => simp [maxMethodsErrors, maxMethodsOkSpec]
  | obj fields => simp [maxMethodsErrors, maxMethodsOkSpec]

theorem logLevelErrors_nil (v : JVal) :
    logLevelErrors v = [] ↔ logLevelOkSpec v = true := by
  cases hv : v.truthy <;>
    cases hm : (match v with
      | JVal.str s => recognizedLogLevels.contains s
      | _ => false) <;>
    simp [logLevelErrors, logLevelOkSpec, hv, hm]

theorem methodListErrors_nil (msg : String) (v : JVal) :
    methodListErrors msg v = [] ↔ methodListOkSpec v = true := by
  cases hv : v.truthy <;>
    cases hm : (match v with | JVal.arr _ => true | _ => false) <;>
    simp [methodListErrors, methodListOkSpec, hv, hm]

theorem commonAttributesErrors_nil (v : JVal) :
    commonAttributesErrors v = [] ↔ commonAttributesOkSpec v = true := by
  cases v with
  | arr l =>
    simp [commonAttributesErrors, commonAttributesOkSpec, JVal.truthy, filterMap_nil_iff,
      List.all_eq_true]
  | obj fields =>
    simp [commonAttributesErrors, commonAttributesOkSpec, JVal.truthy, filterMap_nil_iff,
      List.all_eq_true]
  | undef => simp [commonAttributesErrors, commonAttributesOkSpec, JVal.truthy]
  | jnull => simp [commonAttributesErrors, commonAttributesOkSpec, JVal.truthy]
  | jbool b => cases b <;> simp [commonAttributesErrors, commonAttributesOkSpec, JVal.truthy]
  | num n =>
    by_cases hn : n = 0 <;>
      simp [commonAttributesErrors, commonAttributesOkSpec, JVal.truthy, hn]
  | str s =>
    by_cases hs : s = "" <;>
      simp [commonAttributesErrors, commonAttributesOkSpec, JVal.truthy, hs]

/-- The validator accepts exactly the configurations satisfying the
amended validity condition. -/
theorem validateConfig_isValid (c : RawConfig) :
    (validateConfig c).isValid = validConfigSpec c := by
  apply Bool.eq_iff_iff.mpr
  simp only [validateConfig, validConfigSpec, List.append_eq_nil, beq_iff_eq,
    List.length_eq_zero, Bool.and_eq_true]
  rw [includeFieldErrors_nil, excludeFieldErrors_nil, spanNamePfxErrors_nil,
    maxMethodsErrors_nil, logLevelErrors_nil, methodListErrors_nil, methodListErrors_nil,
    commonAttributesErrors_nil]

/-! ## Claim C7 — configuration resolution -/

/-- C7 (failing as stated): a merged configuration with
`spanNamePrefix` missing (`undefined` after the spread) and an exclude
pattern that is the empty string — both listed by the claim as fatal —
is accepted: `loadConfig` returns the merged configuration instead of
failing with `ConfigInvalid`. -/
theorem claim_C7_counterexample_missing_prefix_accepted :
    propOf (mergeConfig badUserConfig).spanNamePfx = JVal.undef ∧
    propOf (mergeConfig badUserConfig).exclude = JVal.arr [JVal.str ""] ∧
    loadConfig (some badUserConfig) = Except.ok (mergeConfig badUserConfig) :=
  ⟨rfl, rfl, rfl⟩

/-- C7 (amended): configuration resolution fails with `ConfigInvalid`
exactly when the merged configuration violates one of: `include` an
existing non-empty array of non-blank strings; `exclude`, when truthy,
an array of strings (empty strings allowed); `spanNamePrefix`, when
truthy, a string (a missing/falsy one is accepted); `maxMethodsPerFile`,
when present, a number ≥ 1; `logLevel`, when truthy, one of the five
recognised levels; `excludeMethods`/`includeMethods`, when truthy,
arrays; `commonAttributes`, when truthy, an object whose values are
strings.  Otherwise it returns the merged configuration. -/
theorem claim_C7_validation_conditions (userConfig : Option RawConfig) :
    loadConfig userConfig =
      (if validConfigSpec (mergeConfig (userConfig.getD {})) = true then
        Except.ok (mergeConfig (userConfig.getD {}))
      else Except.error "CONFIG_INVALID") := by
  cases h : validConfigSpec (mergeConfig (userConfig.getD {})) <;>
    simp [loadConfig, validateConfig_isValid, h]
